import Mathlib

/-!
Verification development for the vmod-metadata extraction core of
`varnish-lsp` (`src/vmod.rs`).

The development shallowly embeds the three steps of the core:

* the symbol-location step of `read_vmod_lib` (ELF dynamic-symbol scan and
  offset computation, `src/vmod.rs` lines 263-280);
* the descriptor-decoding step of `read_vmod_lib` (the unchecked
  `VmodDataCStruct` reinterpretation and the null-terminated string reads,
  lines 282-307);
* the schema parser `parse_vmod_json` / `parse_vmod_json_func`
  (lines 58-228).

Rust `Result::Err` values returned through `?` are embedded as `PResult.err`;
Rust panics (out-of-range slice indexing such as `signature_arr[3..]`,
`row[6..]`, `&file[off..]` with `off > len`, and `.expect(..)`) are embedded
as `PResult.panicked`; undefined behavior (the unchecked dereference of the
transmuted `*const VmodDataCStruct` when fewer bytes than the record size
remain) is embedded as `PResult.ub`.  Machine integers are embedded as `Nat`
(the computations involved are additions, multiplications and comparisons on
values read from 32/64-bit fields; no wrap-around is exercised by the
properties below).
-/

/-- Outcome of running a piece of the Rust code: a returned value, a returned
error (`Err` propagated via `?`, with its message), a panic (with the panic
message), or undefined behavior. -/
inductive PResult (α : Type) where
  | ok (a : α)
  | err (msg : String)
  | panicked (msg : String)
  | ub (msg : String)
deriving Repr, DecidableEq

/-- Embedding of `serde_json::Value` (crate `serde_json`), the dynamic JSON
value type that `parse_vmod_json` consumes.  JSON numbers are embedded as
`Int`; none of the analysed code paths inspects numeric values. -/
inductive Json where
  | null
  | bool (b : Bool)
  | num (n : Int)
  | str (s : String)
  | arr (elems : List Json)
  | obj (fields : List (String × Json))

/-- `serde_json::Value::as_str`: `Some` exactly on JSON strings. -/
def Json.asStr : Json → Option String
  | .str s => some s
  | _ => none

/-- `serde_json::Value::as_array`: `Some` exactly on JSON arrays. -/
def Json.asArr : Json → Option (List Json)
  | .arr xs => some xs
  | _ => none

/-!
Modelled from the spec: the output type model (`Type` / `Func` / `Obj` of
`varnish_builtins.rs`, which is part of this repository but not under `src/`).
Field names and variants are taken from spec section 3 together with their
uses in `src/vmod.rs`: `Type` has primitive variants `Backend`, `String`,
`Number`, `Bool` plus `Func` and `Obj`; `Func` has fields `name`,
`signature`, `ret_type` (the declared-return-type name), `definition`
(always `None` in this module; its payload type is irrelevant here and is
embedded as `Unit`), and `return` (the resolved return type, `ret` below);
`Obj` has fields `name`, `read_only`, `definition` and `properties` (a
`BTreeMap<String, Type>`, embedded as a duplicate-free association list with
map-style insertion).
-/
mutual
inductive VType where
  | Backend : VType
  | String : VType
  | Number : VType
  | Bool : VType
  | Func (f : VFunc) : VType
  | Obj (o : VObj) : VType
inductive VFunc where
  | mk (name : String) (signature : Option String) (ret_type : Option String)
      (definition : Option Unit) (ret : Option VType) : VFunc
inductive VObj where
  | mk (name : String) (read_only : Bool) (definition : Option Unit)
      (properties : List (String × VType)) : VObj
end

/-- `Func.name` projection. -/
def VFunc.name : VFunc → String
  | .mk n _ _ _ _ => n

/-- `Func.signature` projection. -/
def VFunc.signature : VFunc → Option String
  | .mk _ s _ _ _ => s

/-- `Func.ret_type` projection (the declared-return-type name). -/
def VFunc.ret_type : VFunc → Option String
  | .mk _ _ rt _ _ => rt

/-- `Func.return` projection (the resolved return type). -/
def VFunc.ret : VFunc → Option VType
  | .mk _ _ _ _ r => r

/-- `Obj.name` projection. -/
def VObj.name : VObj → String
  | .mk n _ _ _ => n

/-- `Obj.read_only` projection. -/
def VObj.read_only : VObj → Bool
  | .mk _ ro _ _ => ro

/-- `Obj.properties` projection. -/
def VObj.properties : VObj → List (String × VType)
  | .mk _ _ _ p => p

/-- Map-style insertion into an association list: replaces the value of an
existing key in place, otherwise appends.  This is the key-value behavior of
`BTreeMap::insert` (the claims below only depend on the key-to-value mapping;
`BTreeMap` orders entries by key, which no claim observes). -/
def insertAL : List (String × VType) → String → VType → List (String × VType)
  | [], k, v => [(k, v)]
  | (a, b) :: rest, k, v =>
    if k = a then (k, v) :: rest else (a, b) :: insertAL rest k v

/-- Key lookup in an association list (the key-to-value mapping of the
embedded `BTreeMap`). -/
def lookupAL : List (String × VType) → String → Option VType
  | [], _ => none
  | (a, b) :: rest, k => if k = a then some b else lookupAL rest k

/-- `BTreeMap::insert` on an embedded `Obj`'s `properties`
(`obj.properties.insert(name, ty)` in the source). -/
def VObj.insertProp : VObj → String → VType → VObj
  | .mk n ro d props, k, v => .mk n ro d (insertAL props k v)

/-- The return-type mapping of `parse_vmod_json_func` (`src/vmod.rs` lines
117-125): the `match ret_type` that maps the first candidate return-type name
to a resolved `Type`, with `VOID` and every other name mapped to `None`. -/
def resolveRetType (ret_type : String) : Option VType :=
  if ret_type = "BACKEND" then some .Backend
  else if ret_type = "STRING" then some .String
  else if ret_type = "REAL" then some .Number
  else if ret_type = "INT" then some .Number
  else if ret_type = "BOOL" then some .Bool
  else if ret_type = "VOID" then none
  else none

/-- The parameter-rendering closure inside `parse_vmod_json_func` (lines
92-109): one parameter entry renders as `"<typeName> <paramName>"` when it is
an array whose elements 0 and 1 are strings.  In the source the closure
returns `Result` with the error strings `"Arg signature is not array"`,
`"Missing VMOD method arg type"`, `"VMOD method arg type should be string"`,
`"Missing VMOD method arg name"`, `"VMOD method arg name should be string"`,
but the surrounding `.filter(|r| r.is_ok()).map(|r| r.unwrap())` (lines
110-111) discards every `Err`, so the combination is exactly this
`Option`-valued function used with `filterMap`. -/
def argString (arg : Json) : Option String :=
  match arg.asArr with
  | none => none
  | some arg_arr =>
    match arg_arr.get? 0 with
    | none => none
    | some t =>
      match t.asStr with
      | none => none
      | some input_type =>
        match arg_arr.get? 1 with
        | none => none
        | some n =>
          match n.asStr with
          | none => none
          | some nm => some (input_type ++ " " ++ nm)

/-- Embedding of `parse_vmod_json_func` (`src/vmod.rs` lines 58-134).
Evaluation order follows the source: name (element 1), signature array
(element 2), return-type candidate array (signature element 0, its non-string
elements dropped by `.filter(|r| r.is_ok())`, lines 84-85), then the
signature text from `signature_arr[3..]` — which panics when the signature
array has fewer than 3 elements — and finally the first return-type
candidate (`ret_types.get(0).ok_or("Missing return type")?`).  On success it
builds `Func { name, signature: Some(..), ret_type: Some(..), return, ..
Default::default() }` (the `Default` fills `definition: None`). -/
def parse_vmod_json_func (serde_value_arr : List Json) : PResult VFunc :=
  match serde_value_arr.get? 1 with
  | none => .err "Missing VMOD func name"
  | some nv =>
    match nv.asStr with
    | none => .err "VMOD func name is not string"
    | some name =>
      match serde_value_arr.get? 2 with
      | none => .err "could not find method signature"
      | some sv =>
        match sv.asArr with
        | none => .err "method signature not array"
        | some signature_arr =>
          match signature_arr.get? 0 with
          | none => .err "Missing return type field"
          | some rv =>
            match rv.asArr with
            | none => .err "Return type should be array"
            | some ret_arr =>
              let ret_types : List String := ret_arr.filterMap Json.asStr
              if signature_arr.length < 3 then
                .panicked "range start index 3 out of range"
              else
                let args := (signature_arr.drop 3).filterMap argString
                let signature := "(" ++ String.intercalate ", " args ++ ")"
                match ret_types.get? 0 with
                | none => .err "Missing return type"
                | some ret_type =>
                  .ok (.mk name (some signature) (some ret_type) none
                        (resolveRetType ret_type))

/-- The `$OBJ` method loop of `parse_vmod_json` (lines 207-211): each element
of `row[6..]` must be an array (`.ok_or("Method is not array")?`) and is
parsed with `parse_vmod_json_func`; the resulting `Func` is inserted into the
object's properties keyed by its name. -/
def parseMethods (obj : VObj) : List Json → PResult VObj
  | [] => .ok obj
  | m :: rest =>
    match m.asArr with
    | none => .err "Method is not array"
    | some method_arr =>
      match parse_vmod_json_func method_arr with
      | .ok f => parseMethods (obj.insertProp f.name (.Func f)) rest
      | .err msg => .err msg
      | .panicked msg => .panicked msg
      | .ub msg => .ub msg

/-- What one row of the `parse_vmod_json` loop (lines 154-225) contributes to
the module namespace: `ok none` for a skipped row (non-string tag, the
recognized-but-ignored `"$VMOD"` and `"$EVENT"` tags, and every unrecognized
tag), `ok (some (key, value))` for a `"$FUNC"` or `"$OBJ"` row (the inserted
key and `Type::Func` value), `err "empty array"` for an empty row
(`row.get(0).ok_or("empty array")?`), and the propagated error or panic of a
failed `"$FUNC"`/`"$OBJ"` row.  The `"$OBJ"` arm reads the object name from
element 1 (lines 193-198), parses the methods from `row[6..]` — a slice that
panics when the row has fewer than 6 elements — and wraps the resulting
object in a synthetic `Func { name, signature: None, ret_type: Some(name),
definition: None, return: Some(Box::new(Type::Obj(obj))) }` (lines
213-219). -/
def rowEffect (row : List Json) : PResult (Option (String × VType)) :=
  match row.get? 0 with
  | none => .err "empty array"
  | some v =>
    match v.asStr with
    | none => .ok none
    | some row_type =>
      if row_type = "$VMOD" then .ok none
      else if row_type = "$EVENT" then .ok none
      else if row_type = "$FUNC" then
        match parse_vmod_json_func row with
        | .ok f => .ok (some (f.name, .Func f))
        | .err msg => .err msg
        | .panicked msg => .panicked msg
        | .ub msg => .ub msg
      else if row_type = "$OBJ" then
        match row.get? 1 with
        | none => .err "Failed to get obj name"
        | some nv =>
          match nv.asStr with
          | none => .err "Obj name is not string"
          | some name =>
            if row.length < 6 then
              .panicked "range start index 6 out of range"
            else
              match parseMethods (.mk name true none []) (row.drop 6) with
              | .ok obj =>
                .ok (some (name,
                  .Func (.mk name none (some name) none (some (.Obj obj)))))
              | .err msg => .err msg
              | .panicked msg => .panicked msg
              | .ub msg => .ub msg
      else .ok none

/-- One iteration of the `for row in json_parsed.iter()` loop of
`parse_vmod_json`: apply the row's contribution to the accumulated module
namespace object (`vmod_obj.properties.insert(..)` for `"$FUNC"`/`"$OBJ"`
rows, no change for skipped rows, error/panic propagation otherwise). -/
def processRow (obj : VObj) (row : List Json) : PResult VObj :=
  match rowEffect row with
  | .ok none => .ok obj
  | .ok (some (k, v)) => .ok (obj.insertProp k v)
  | .err msg => .err msg
  | .panicked msg => .panicked msg
  | .ub msg => .ub msg

/-- The whole row loop of `parse_vmod_json`, threading the accumulated
`vmod_obj` through the rows in order. -/
def runRows (obj : VObj) : List (List Json) → PResult VObj
  | [] => .ok obj
  | row :: rest =>
    match processRow obj row with
    | .ok obj2 => runRows obj2 rest
    | .err msg => .err msg
    | .panicked msg => .panicked msg
    | .ub msg => .ub msg

/-- The initial `vmod_obj` of `parse_vmod_json` (lines 147-152): name `""`,
`read_only: true`, `definition: None`, empty properties. -/
def initialObj : VObj := .mk "" true none []

/-- Embedding of `parse_vmod_json` (`src/vmod.rs` lines 136-228) after the
`serde_json::from_str::<Vec<Vec<SerdeValue>>>` step: the input is the
deserialized array-of-arrays (JSON syntax checking is the external
`serde_json` crate; its failure, the spec's `SchemaSyntaxError`, is out of
scope of the row-processing claims, which all condition on a top level that
is a valid JSON array of arrays).  On completion the loop's accumulated
object is returned as `Ok(Type::Obj(vmod_obj))`. -/
def parse_vmod_json (rows : List (List Json)) : PResult VType :=
  match runRows initialObj rows with
  | .ok o => .ok (.Obj o)
  | .err msg => .err msg
  | .panicked msg => .panicked msg
  | .ub msg => .ub msg

/-- An entry of the ELF dynamic symbol table as used by `read_vmod_lib`:
`st_name` is the byte offset of the symbol's name in the dynamic string
table, `st_shndx` the index of the referenced section header (both `usize`
in goblin's parsed form). -/
structure ElfSym where
  st_name : Nat
  st_shndx : Nat
deriving Repr, DecidableEq

/-- The two section-header fields `read_vmod_lib` uses: `sh_offset` (file
offset of the section) and `sh_entsize` (size of one entry of the
section). -/
structure SectionHeader where
  sh_offset : Nat
  sh_entsize : Nat
deriving Repr, DecidableEq

/-- The parts of goblin's parsed `Elf` that the symbol-location step of
`read_vmod_lib` reads: the dynamic symbol table `dynsyms` (in table order),
the dynamic string table `dynstrtab` (abstracted as the partial map from
byte offset to the resolved name string that `Strtab::get_at` implements),
and the section header table.  The `Elf::parse` step itself is the external
`goblin` crate (its failure is the spec's `MalformedImage`) and is not
modeled. -/
structure ElfImage where
  dynsyms : List ElfSym
  dynstrtab : List (Nat × String)
  section_headers : List SectionHeader

/-- `Strtab::get_at`: resolve a byte offset of the dynamic string table to
the name stored there, if any. -/
def getAt : List (Nat × String) → Nat → Option String
  | [], _ => none
  | (k, s) :: rest, n => if n = k then some s else getAt rest n

/-- The match predicate of the `find` closure in `read_vmod_lib` (lines
268-273): `elf.dynstrtab.get_at(sym.st_name).and_then(|n| Some(n ==
target)).unwrap_or(false)` — the entry's resolved name must equal the target
exactly (case-sensitive `String` equality); an unresolvable name offset
counts as no match. -/
def symMatches (strtab : List (Nat × String)) (target : String)
    (sym : ElfSym) : Bool :=
  ((getAt strtab sym.st_name).map (fun n => decide (n = target))).getD false

/-- `.iter().enumerate().find(..)` over the dynamic symbol table: the first
matching entry together with its zero-based position in the full table,
counting from `i`. -/
def findSymFrom (strtab : List (Nat × String)) (target : String) :
    Nat → List ElfSym → Option (Nat × ElfSym)
  | _, [] => none
  | i, sym :: rest =>
    if symMatches strtab target sym then some (i, sym)
    else findSymFrom strtab target (i + 1) rest

/-- Embedding of the symbol-location step of `read_vmod_lib` (`src/vmod.rs`
lines 263-280): form the expected export name `Vmod_<name>_Data`, scan the
full dynamic symbol table for the first entry whose resolved name equals it
(`ok_or("Could not find vmod data symbol")?` on no match), look up the
matched entry's section header (`.get(vmd_sym.st_shndx).expect("Could not
find section")` — a panic, not a returned error, when the index is out of
range), and compute the descriptor's file offset as `sec.sh_offset +
vmd_sym_idx * sec.sh_entsize` with `vmd_sym_idx` the position of the match
in the full table. -/
def locate_vmod_data (elf : ElfImage) (vmod_name : String) : PResult Nat :=
  let vmod_data_symbol_name := "Vmod_" ++ vmod_name ++ "_Data"
  match findSymFrom elf.dynstrtab vmod_data_symbol_name 0 elf.dynsyms with
  | none => .err "Could not find vmod data symbol"
  | some (vmd_sym_idx, vmd_sym) =>
    match elf.section_headers.get? vmd_sym.st_shndx with
    | none => .panicked "Could not find section"
    | some sec => .ok (sec.sh_offset + vmd_sym_idx * sec.sh_entsize)

/-- Little-endian value of `n` bytes of `file` starting at `off` (the
byte-buffer reinterpretation of a `u32`/pointer-sized field on the x86-64
target the source is compiled for). -/
def leVal (file : List Nat) (off : Nat) : Nat → Nat
  | 0 => 0
  | n + 1 => file.getD off 0 + 256 * leVal file (off + 1) n

/-- The raw field values of `VmodDataCStruct` (`src/vmod.rs` lines 9-21) as
read from the byte buffer: `vrt_major`/`vrt_minor` are `u32`, the five
`*const c_char` fields and the `*const u8` field are 64-bit values that the
code later casts with `as usize` and uses as byte offsets into the same
buffer, `func_len` is the raw 32-bit `i32` field (never dereferenced
here). -/
structure VmodDataCStruct where
  vrt_major : Nat
  vrt_minor : Nat
  file_id : Nat
  name : Nat
  func : Nat
  func_len : Nat
  proto : Nat
  json : Nat
  abi : Nat
deriving Repr, DecidableEq

/-- Embedding of lines 282-284 of `read_vmod_lib`: `file[offset..]` panics
when `offset` exceeds the buffer length; the `transmute` to
`*const VmodDataCStruct` followed by the unchecked dereference `&*vmd_ptr`
is undefined behavior when fewer bytes than the 64-byte record (`#[repr(C)]`
layout: `u32` at 0, `u32` at 4, pointers at 8, 16, 24, `i32` at 32, padding,
pointers at 40, 48, 56) remain at `offset` — there is no bounds check.
Otherwise the fields are the little-endian values at their `#[repr(C)]`
offsets. -/
def readVmodStruct (file : List Nat) (offset : Nat) :
    PResult VmodDataCStruct :=
  if file.length < offset then .panicked "range start index out of range"
  else if file.length < offset + 64 then
    .ub "descriptor record read past end of buffer"
  else
    .ok ⟨leVal file offset 4, leVal file (offset + 4) 4,
      leVal file (offset + 8) 8, leVal file (offset + 16) 8,
      leVal file (offset + 24) 8, leVal file (offset + 32) 4,
      leVal file (offset + 40) 8, leVal file (offset + 48) 8,
      leVal file (offset + 56) 8⟩

/-- The bytes before the first nul byte of a list, if a nul byte occurs. -/
def bytesUntilNul : List Nat → Option (List Nat)
  | [] => none
  | b :: rest =>
    if b = 0 then some []
    else (bytesUntilNul rest).map (fun tail => b :: tail)

/-- Embedding of one string resolution of `read_vmod_lib`:
`CStr::from_bytes_until_nul(&file[off..])?`.  The slice `&file[off..]`
panics when `off` exceeds the buffer length (there is no bounds check before
it); when no nul byte occurs in the rest of the buffer (in particular when
`off` equals the length), `from_bytes_until_nul` returns an error that `?`
propagates.  The value is kept as the raw bytes before the terminator (the
subsequent `to_string_lossy` UTF-8 decoding is irrelevant to the bounds
behavior analysed here). -/
def readCString (file : List Nat) (off : Nat) : PResult (List Nat) :=
  if file.length < off then .panicked "range start index out of range"
  else
    match bytesUntilNul (file.drop off) with
    | none => .err "data provided is not nul terminated"
    | some bytes => .ok bytes

/-- The decoded descriptor: the two version fields, the raw `func_len`, and
the six resolved strings (as raw bytes). -/
structure RawDescriptor where
  vrt_major : Nat
  vrt_minor : Nat
  file_id : List Nat
  name : List Nat
  func : List Nat
  func_len : Nat
  proto : List Nat
  json : List Nat
  abi : List Nat
deriving Repr, DecidableEq

/-- Error/panic/UB propagation for the embedded Rust control flow. -/
def PResult.bind : PResult α → (α → PResult β) → PResult β
  | .ok a, f => f a
  | .err msg, _ => .err msg
  | .panicked msg, _ => .panicked msg
  | .ub msg, _ => .ub msg

/-- Embedding of the descriptor-decoding step of `read_vmod_lib`
(`src/vmod.rs` lines 282-307): the unchecked record read at `offset`
followed by the string resolutions in source evaluation order — `json`
first (line 286), then `name`, `file_id`, `func`, `proto`, `abi` (the
`VmodData` struct literal evaluates its fields in written order).  In the
source, `parse_vmod_json` runs on the decoded `json` text between the `json`
read and the `name` read; that step concerns the schema layer and is
modeled separately (`parse_vmod_json` above), so it is omitted here. -/
def read_vmod_descriptor (file : List Nat) (offset : Nat) :
    PResult RawDescriptor :=
  (readVmodStruct file offset).bind fun vmd =>
  (readCString file vmd.json).bind fun json =>
  (readCString file vmd.name).bind fun name =>
  (readCString file vmd.file_id).bind fun file_id =>
  (readCString file vmd.func).bind fun func =>
  (readCString file vmd.proto).bind fun proto =>
  (readCString file vmd.abi).bind fun abi =>
  .ok ⟨vmd.vrt_major, vmd.vrt_minor, file_id, name, func, vmd.func_len,
    proto, json, abi⟩

/-- Hypothesis former for "well-formed nested method rows": each element must
be a JSON array whose `parse_vmod_json_func` parse succeeds; returns the
parsed method `Func`s in row order. -/
def methodFuncs : List Json → Option (List VFunc)
  | [] => some []
  | m :: rest =>
    match m.asArr with
    | none => none
    | some arr =>
      match parse_vmod_json_func arr with
      | .ok f => (methodFuncs rest).map (fun fs => f :: fs)
      | _ => none

/-- The accumulated effect of inserting a list of parsed method `Func`s into
a property map keyed by their names, in order (what the `$OBJ` method loop
does to the object's properties). -/
def foldInsertFuncs (props : List (String × VType)) :
    List VFunc → List (String × VType)
  | [] => props
  | f :: rest => foldInsertFuncs (insertAL props f.name (.Func f)) rest

/-- One step of the "last contribution wins" characterization: a row that
contributes key `k` replaces the accumulator, any other row leaves it. -/
def contribStep (k : String) (acc : Option VType) (row : List Json) :
    Option VType :=
  match rowEffect row with
  | .ok (some (a, v)) => if a = k then some v else acc
  | _ => acc

/-- The value contributed under key `k` by the last row of `rows` that
contributes that key, if any. -/
def lastContrib (k : String) (rows : List (List Json)) : Option VType :=
  rows.foldl (contribStep k) none

mutual
/-- Invariant checker: every `Func` anywhere in a `Type` tree has its
`ret_type` field present (`Some`). -/
def typeRetsOk : VType → Bool
  | .Func f => funcRetsOk f
  | .Obj o => objRetsOk o
  | _ => true
/-- Invariant checker on a `Func`: its own `ret_type` is present and its
resolved return type (if any) satisfies the invariant. -/
def funcRetsOk : VFunc → Bool
  | .mk _ _ rt _ r => rt.isSome && optRetsOk r
/-- Invariant checker on an optional nested `Type`. -/
def optRetsOk : Option VType → Bool
  | none => true
  | some t => typeRetsOk t
/-- Invariant checker on an `Obj`: all property values satisfy the
invariant. -/
def objRetsOk : VObj → Bool
  | .mk _ _ _ props => propsRetsOk props
/-- Invariant checker on a property list. -/
def propsRetsOk : List (String × VType) → Bool
  | [] => true
  | (_, t) :: rest => typeRetsOk t && propsRetsOk rest
end

/-- If the entry at position `i` (counting from the full table) is the first
match, the enumerated scan finds exactly it, at offset `k + i` when the scan
starts counting at `k`. -/
theorem findSymFrom_first (strtab : List (Nat × String)) (target : String) :
    ∀ (l : List ElfSym) (k i : Nat) (sym : ElfSym),
      l.get? i = some sym →
      symMatches strtab target sym = true →
      (∀ j sym', j < i → l.get? j = some sym' →
        symMatches strtab target sym' = false) →
      findSymFrom strtab target k l = some (k + i, sym) := by
  intro l
  induction l with
  | nil => intro k i sym hget _ _; simp at hget
  | cons s rest ih =>
    intro k i sym hget hmatch hfirst
    cases i with
    | zero =>
      simp at hget
      subst hget
      simp [findSymFrom, hmatch]
    | succ i' =>
      have hs : symMatches strtab target s = false :=
        hfirst 0 s (Nat.succ_pos i') rfl
      simp only [findSymFrom, hs, Bool.false_eq_true, if_false]
      have hrec := ih (k + 1) i' sym (by simpa using hget) hmatch
        (fun j sym' hj hg => hfirst (j + 1) sym' (by omega) (by simpa using hg))
      have harith : k + 1 + i' = k + (i' + 1) := by omega
      rw [harith] at hrec
      exact hrec

/-- A scan over a table with no matching entry finds nothing. -/
theorem findSymFrom_none (strtab : List (Nat × String)) (target : String) :
    ∀ (l : List ElfSym) (k : Nat),
      (∀ sym ∈ l, symMatches strtab target sym = false) →
      findSymFrom strtab target k l = none := by
  intro l
  induction l with
  | nil => intro k _; rfl
  | cons s rest ih =>
    intro k hall
    have hs : symMatches strtab target s = false := hall s (by simp)
    simp only [findSymFrom, hs, Bool.false_eq_true, if_false]
    exact ih (k + 1) (fun sym hmem => hall sym (by simp [hmem]))

/-- C1: if the dynamic-export-table entry whose resolved name equals exactly
`Vmod_<moduleName>_Data` appears at zero-based position `i` of the full
export table (i.e. it is the first entry with that name) and references a
valid section, the symbol-location step returns the descriptor file offset
`sec.sh_offset + i * sec.sh_entsize`, the index `i` taken over the full
export table; and if no entry of the export table resolves to that exact
name, it returns the `SymbolNotFound` error
(`"Could not find vmod data symbol"`). -/
theorem C1_symbol_locate :
    (∀ (elf : ElfImage) (vmod_name : String) (i : Nat) (sym : ElfSym)
        (sec : SectionHeader),
      elf.dynsyms.get? i = some sym →
      symMatches elf.dynstrtab ("Vmod_" ++ vmod_name ++ "_Data") sym = true →
      (∀ j sym', j < i → elf.dynsyms.get? j = some sym' →
        symMatches elf.dynstrtab ("Vmod_" ++ vmod_name ++ "_Data") sym'
          = false) →
      elf.section_headers.get? sym.st_shndx = some sec →
      locate_vmod_data elf vmod_name
        = .ok (sec.sh_offset + i * sec.sh_entsize))
    ∧ (∀ (elf : ElfImage) (vmod_name : String),
      (∀ sym ∈ elf.dynsyms,
        symMatches elf.dynstrtab ("Vmod_" ++ vmod_name ++ "_Data") sym
          = false) →
      locate_vmod_data elf vmod_name
        = .err "Could not find vmod data symbol") := by
  constructor
  · intro elf vmod_name i sym sec hget hmatch hfirst hsec
    have hf := findSymFrom_first elf.dynstrtab ("Vmod_" ++ vmod_name ++
      "_Data") elf.dynsyms 0 i sym hget hmatch hfirst
    simp only [locate_vmod_data, hf, hsec, Nat.zero_add]
  · intro elf vmod_name hall
    have hf := findSymFrom_none elf.dynstrtab ("Vmod_" ++ vmod_name ++
      "_Data") elf.dynsyms 0 hall
    simp only [locate_vmod_data, hf]

/-- Witness for C1 on a concrete image: one symbol at table position 0,
resolving to `Vmod_foo_Data`, referencing section 0 with file offset 100 and
entry size 24, so `locate` returns `100 + 0 * 24 = 100`. -/
theorem C1_symbol_locate_witness :
    locate_vmod_data ⟨[⟨0, 0⟩], [(0, "Vmod_foo_Data")], [⟨100, 24⟩]⟩ "foo"
      = .ok (100 + 0 * 24) :=
  C1_symbol_locate.1 ⟨[⟨0, 0⟩], [(0, "Vmod_foo_Data")], [⟨100, 24⟩]⟩ "foo"
    0 ⟨0, 0⟩ ⟨100, 24⟩ rfl (by decide)
    (fun j sym' hj _ => absurd hj (Nat.not_lt_zero j)) rfl

/-- C2 fails on the code (code bug): the descriptor decode is not
bounds-checked.  On an 8-byte buffer (too few bytes for the 64-byte fixed
record) the unchecked dereference of the transmuted struct pointer is
undefined behavior, not a `TruncatedData` error; on a 64-byte buffer whose
stored `json` offset field is 100 (beyond the buffer) the slice
`&file[100..]` panics instead of returning `OutOfBounds`; and with the
stored offset exactly at the buffer length the scan reports the
missing-terminator error rather than `OutOfBounds`. -/
theorem C2_descriptor_unchecked :
    read_vmod_descriptor (List.replicate 8 0) 0
      = .ub "descriptor record read past end of buffer"
    ∧ read_vmod_descriptor
        (List.replicate 48 0 ++ 100 :: List.replicate 15 0) 0
      = .panicked "range start index out of range"
    ∧ read_vmod_descriptor
        (List.replicate 48 0 ++ 64 :: List.replicate 15 0) 0
      = .err "data provided is not nul terminated" :=
  ⟨rfl, rfl, rfl⟩

/-- C3 fails on the code (code bug): a function-tag row with a malformed
parameter entry (the number `42` where a `[typeName, paramName]` array is
required) does not abort the parse — the `.filter(|r| r.is_ok())` on the
parameter results discards the error — and the parse returns a `Func` with
signature `"()"`; moreover a function-tag row whose signature array has
fewer than 3 elements makes the parser panic at `signature_arr[3..]` instead
of returning an error. -/
theorem C3_malformed_not_aborted :
    parse_vmod_json [[.str "$FUNC", .str "f",
        .arr [.arr [.str "STRING"], .null, .null, .num 42]]]
      = .ok (.Obj (.mk "" true none
          [("f", .Func (.mk "f" (some "()") (some "STRING") none
              (some .String)))]))
    ∧ parse_vmod_json [[.str "$FUNC", .str "f", .arr [.arr [.str "STRING"]]]]
      = .panicked "range start index 3 out of range" :=
  ⟨rfl, rfl⟩

/-- C4 fails on the code (code bug): on an image whose matched export entry
references section index 5 while only one section header exists, the
symbol-location step panics via `.expect("Could not find section")` instead
of returning a `SectionNotFound` error value. -/
theorem C4_invalid_section_panics :
    locate_vmod_data ⟨[⟨0, 5⟩], [(0, "Vmod_foo_Data")], [⟨100, 24⟩]⟩ "foo"
      = .panicked "Could not find section" := rfl

/-- C6: parsing the single function-tag row
`["$FUNC","greet",[["STRING"],null,null,["STRING","name"],["INT","count"]]]`
produces a `Func` named `greet` with signature text
`"(STRING name, INT count)"` (parameters from signature index 3 onward,
rendered `"<typeName> <paramName>"`, comma-separated, parenthesized) and
resolved return type `String`. -/
theorem C6_greet_example :
    parse_vmod_json [[.str "$FUNC", .str "greet",
        .arr [.arr [.str "STRING"], .null, .null,
          .arr [.str "STRING", .str "name"],
          .arr [.str "INT", .str "count"]]]]
      = .ok (.Obj (.mk "" true none
          [("greet", .Func (.mk "greet" (some "(STRING name, INT count)")
              (some "STRING") none (some .String)))])) := rfl

/-- C7: the return-type mapping is exactly `BACKEND`→Backend,
`STRING`→String, `REAL`→Number, `INT`→Number, `BOOL`→Bool, and `VOID` as
well as every other name maps to an absent resolved return type. -/
theorem C7_ret_type_mapping :
    resolveRetType "BACKEND" = some .Backend
    ∧ resolveRetType "STRING" = some .String
    ∧ resolveRetType "REAL" = some .Number
    ∧ resolveRetType "INT" = some .Number
    ∧ resolveRetType "BOOL" = some .Bool
    ∧ resolveRetType "VOID" = none
    ∧ (∀ s : String, s ≠ "BACKEND" → s ≠ "STRING" → s ≠ "REAL" →
        s ≠ "INT" → s ≠ "BOOL" → resolveRetType s = none) := by
  refine ⟨rfl, rfl, rfl, rfl, rfl, rfl, ?_⟩
  intro s h1 h2 h3 h4 h5
  unfold resolveRetType
  simp [h1, h2, h3, h4, h5]

/-- Witness for C7's unrecognized-name case at the concrete name
`"DURATION"`. -/
theorem C7_ret_type_mapping_witness :
    resolveRetType "DURATION" = none :=
  C7_ret_type_mapping.2.2.2.2.2.2 "DURATION" (by decide) (by decide)
    (by decide) (by decide) (by decide)

/-- The row loop distributes over list append: process the first rows, then
(on success) the remaining ones from the accumulated state. -/
theorem runRows_append :
    ∀ (l1 l2 : List (List Json)) (obj : VObj),
      runRows obj (l1 ++ l2) = (runRows obj l1).bind (fun o => runRows o l2) := by
  intro l1
  induction l1 with
  | nil => intro l2 obj; rfl
  | cons r rest ih =>
    intro l2 obj
    simp only [List.cons_append, runRows]
    cases processRow obj r with
    | ok obj2 => exact ih l2 obj2
    | err msg => rfl
    | panicked msg => rfl
    | ub msg => rfl

/-- A row whose first element is not a JSON string is skipped: the loop
state is unchanged and no error is raised. -/
theorem processRow_skip_nonstring (obj : VObj) (v : Json) (rest : List Json)
    (hv : v.asStr = none) : processRow obj (v :: rest) = .ok obj := by
  simp only [processRow, rowEffect, List.get?, hv]

/-- C10: in a schema whose top level parses as a JSON array of arrays, a row
whose first element exists but is not a JSON text value is silently skipped
— the parse of the whole schema equals the parse without that row — whereas
a row that is an empty array aborts the entire parse with the error
`"empty array"` (provided the rows before it processed successfully, so that
the loop reaches it). -/
theorem C10_nonstring_skipped_empty_fails :
    (∀ (pre post : List (List Json)) (v : Json) (rest : List Json),
      v.asStr = none →
      parse_vmod_json (pre ++ (v :: rest) :: post)
        = parse_vmod_json (pre ++ post))
    ∧ (∀ (pre post : List (List Json)) (obj : VObj),
      runRows initialObj pre = .ok obj →
      parse_vmod_json (pre ++ ([] : List Json) :: post)
        = .err "empty array") := by
  constructor
  · intro pre post v rest hv
    unfold parse_vmod_json
    rw [runRows_append, runRows_append]
    have hrow : ∀ o : VObj, runRows o ((v :: rest) :: post) = runRows o post := by
      intro o
      simp only [runRows, processRow_skip_nonstring o v rest hv]
    cases runRows initialObj pre with
    | ok o => simp only [PResult.bind, hrow]
    | err msg => rfl
    | panicked msg => rfl
    | ub msg => rfl
  · intro pre post obj hpre
    unfold parse_vmod_json
    rw [runRows_append, hpre]
    rfl

/-- Witness for C10: the schema `[[5]]` (one row whose first element is the
number 5) parses exactly like the empty schema, and the schema `[[]]` (one
empty row) fails with `"empty array"`. -/
theorem C10_nonstring_skipped_empty_fails_witness :
    parse_vmod_json [[Json.num 5]] = parse_vmod_json []
    ∧ parse_vmod_json [([] : List Json)] = .err "empty array" :=
  ⟨C10_nonstring_skipped_empty_fails.1 [] [] (.num 5) [] rfl,
   C10_nonstring_skipped_empty_fails.2 [] [] initialObj rfl⟩

/-- When every nested method row is well-formed, the `$OBJ` method loop
succeeds and its effect on the object's properties is exactly the insertion
of the parsed method `Func`s, keyed by name, in order. -/
theorem parseMethods_methodFuncs :
    ∀ (ms : List Json) (fs : List VFunc) (n : String) (ro : Bool)
      (d : Option Unit) (props : List (String × VType)),
      methodFuncs ms = some fs →
      parseMethods (.mk n ro d props) ms
        = .ok (.mk n ro d (foldInsertFuncs props fs)) := by
  intro ms
  induction ms with
  | nil =>
    intro fs n ro d props hm
    simp only [methodFuncs, Option.some.injEq] at hm
    subst hm
    rfl
  | cons m rest ih =>
    intro fs n ro d props hm
    cases ha : m.asArr with
    | none =>
      simp only [methodFuncs, ha] at hm
      exact Option.noConfusion hm
    | some arr =>
      simp only [methodFuncs, ha] at hm
      cases hp : parse_vmod_json_func arr with
      | ok f =>
        simp only [hp] at hm
        cases hrest : methodFuncs rest with
        | none =>
          simp only [hrest, Option.map_none'] at hm
          exact Option.noConfusion hm
        | some fs' =>
          simp only [hrest, Option.map_some', Option.some.injEq] at hm
          subst hm
          simp only [parseMethods, ha, hp, VObj.insertProp]
          exact ih fs' n ro d (insertAL props f.name (.Func f)) hrest
      | err msg =>
        simp only [hp] at hm
        exact Option.noConfusion hm
      | panicked msg =>
        simp only [hp] at hm
        exact Option.noConfusion hm
      | ub msg =>
        simp only [hp] at hm
        exact Option.noConfusion hm

/-- C5 (amended: the row must have at least six elements): an object-tag row
with object name `N` and at least six elements, whose elements from index 6
onward are well-formed nested method rows, makes the parser produce an
`Obj` named `N` whose properties are exactly the parsed methods, wrapped in
a synthetic `Func` named `N` with absent signature and the `Obj` as resolved
return type, inserted into the enclosing namespace under key `N`. -/
theorem C5_object_row (vobj : VObj) (row : List Json) (name : String)
    (fs : List VFunc)
    (h0 : row.get? 0 = some (.str "$OBJ"))
    (h1 : row.get? 1 = some (.str name))
    (hlen : 6 ≤ row.length)
    (hm : methodFuncs (row.drop 6) = some fs) :
    processRow vobj row
      = .ok (vobj.insertProp name (.Func (.mk name none (some name) none
          (some (.Obj (.mk name true none (foldInsertFuncs [] fs))))))) := by
  have hpm := parseMethods_methodFuncs (row.drop 6) fs name true none [] hm
  have hnlt : ¬ row.length < 6 := by omega
  have h0g : row[0]? = some (Json.str "$OBJ") := by simpa using h0
  have h1g : row[1]? = some (Json.str name) := by simpa using h1
  simp [processRow, rowEffect, h0g, h1g, Json.asStr, hnlt, hpm]

/-- C5 as stated fails on the code: the object-tag row `["$OBJ","x"]` has no
elements from index 6 onward (vacuously all well-formed), yet the parser
does not produce an Object — it panics at the slice `row[6..]` because the
row has fewer than 6 elements. -/
theorem C5_short_object_row_panics :
    parse_vmod_json [[Json.str "$OBJ", Json.str "x"]]
      = .panicked "range start index 6 out of range" := rfl

/-- Witness for C5 on a concrete six-element object-tag row with no
methods. -/
theorem C5_object_row_witness :
    processRow initialObj
        [Json.str "$OBJ", Json.str "x", Json.null, Json.null, Json.null,
          Json.null]
      = .ok (initialObj.insertProp "x" (.Func (.mk "x" none (some "x") none
          (some (.Obj (.mk "x" true none (foldInsertFuncs [] []))))))) :=
  C5_object_row initialObj
    [Json.str "$OBJ", Json.str "x", Json.null, Json.null, Json.null,
      Json.null] "x" [] rfl rfl (by decide) rfl

/-- `insertProp` acts on the properties by map insertion. -/
theorem insertProp_properties (obj : VObj) (a : String) (v : VType) :
    (obj.insertProp a v).properties = insertAL obj.properties a v := by
  cases obj
  rfl

/-- Lookup after map insertion: the inserted key maps to the new value,
every other key is unchanged. -/
theorem lookup_insertAL :
    ∀ (props : List (String × VType)) (a : String) (v : VType) (k : String),
      lookupAL (insertAL props a v) k
        = if a = k then some v else lookupAL props k := by
  intro props
  induction props with
  | nil =>
    intro a v k
    by_cases h : a = k
    · subst h
      simp [insertAL, lookupAL]
    · simp [insertAL, lookupAL, h, Ne.symm h]
  | cons p rest ih =>
    obtain ⟨x, y⟩ := p
    intro a v k
    by_cases hax : a = x
    · subst hax
      simp only [insertAL, if_pos rfl]
      by_cases hak : a = k
      · subst hak
        simp [lookupAL]
      · simp [lookupAL, hak, Ne.symm hak]
    · simp only [insertAL, if_neg hax, lookupAL, ih]
      by_cases hkx : k = x
      · by_cases hak : a = k
        · exact absurd (hak.trans hkx) hax
        · simp [hkx, hak, hax]
      · by_cases hak : a = k
        · simp [hkx, hak]
        · simp [hkx, hak]

/-- Running the row loop from any starting state: the final lookup of key
`k` is the fold of the per-row contribution step over the starting
lookup. -/
theorem lookup_runRows :
    ∀ (rows : List (List Json)) (obj o : VObj) (k : String),
      runRows obj rows = .ok o →
      lookupAL o.properties k
        = rows.foldl (contribStep k) (lookupAL obj.properties k) := by
  intro rows
  induction rows with
  | nil =>
    intro obj o k h
    simp only [runRows, PResult.ok.injEq] at h
    subst h
    rfl
  | cons row rest ih =>
    intro obj o k h
    simp only [runRows, processRow] at h
    simp only [List.foldl_cons]
    cases hre : rowEffect row with
    | ok oc =>
      cases oc with
      | none =>
        simp only [hre] at h
        rw [ih obj o k h]
        congr 1
        simp [contribStep, hre]
      | some kv =>
        obtain ⟨a, v⟩ := kv
        simp only [hre] at h
        rw [ih _ o k h]
        congr 1
        rw [insertProp_properties, lookup_insertAL]
        simp [contribStep, hre]
    | err msg => simp only [hre] at h; exact PResult.noConfusion h
    | panicked msg => simp only [hre] at h; exact PResult.noConfusion h
    | ub msg => simp only [hre] at h; exact PResult.noConfusion h

/-- C8: a successful parse returns a root Object whose property mapping
sends every key to the contribution of the last function-tag or object-tag
row that produced that key (later rows overwrite earlier ones); every
contribution is a `Func` keyed by its own name; and a row with a recognized
first element that is a string but not one of the four recognized tags
contributes nothing and causes no error. -/
theorem C8_root_namespace_last_wins :
    (∀ (rows : List (List Json)) (t : VType),
      parse_vmod_json rows = .ok t →
      ∃ o : VObj, t = .Obj o ∧
        ∀ k, lookupAL o.properties k = lastContrib k rows)
    ∧ (∀ (row : List Json) (a : String) (v : VType),
      rowEffect row = .ok (some (a, v)) →
      ∃ f : VFunc, v = .Func f ∧ f.name = a)
    ∧ (∀ (row : List Json) (v : Json) (tag : String),
      row.get? 0 = some v → v.asStr = some tag →
      tag ≠ "$VMOD" → tag ≠ "$EVENT" → tag ≠ "$FUNC" → tag ≠ "$OBJ" →
      rowEffect row = .ok none) := by
  refine ⟨?_, ?_, ?_⟩
  · intro rows t h
    unfold parse_vmod_json at h
    cases hrr : runRows initialObj rows with
    | ok o =>
      simp only [hrr, PResult.ok.injEq] at h
      exact ⟨o, h.symm, fun k => lookup_runRows rows initialObj o k hrr⟩
    | err msg => simp only [hrr] at h; exact PResult.noConfusion h
    | panicked msg => simp only [hrr] at h; exact PResult.noConfusion h
    | ub msg => simp only [hrr] at h; exact PResult.noConfusion h
  · intro row a v h
    unfold rowEffect at h
    split at h
    · exact PResult.noConfusion h
    · split at h
      · simp at h
      · split at h
        · simp at h
        · split at h
          · simp at h
          · split at h
            · -- "$FUNC" row
              split at h
              · simp only [PResult.ok.injEq, Option.some.injEq,
                  Prod.mk.injEq] at h
                obtain ⟨ha, hv⟩ := h
                exact ⟨_, hv.symm, ha⟩
              · exact PResult.noConfusion h
              · exact PResult.noConfusion h
              · exact PResult.noConfusion h
            · split at h
              · -- "$OBJ" row
                split at h
                · exact PResult.noConfusion h
                · split at h
                  · exact PResult.noConfusion h
                  · split at h
                    · exact PResult.noConfusion h
                    · split at h
                      · simp only [PResult.ok.injEq, Option.some.injEq,
                          Prod.mk.injEq] at h
                        obtain ⟨ha, hv⟩ := h
                        refine ⟨_, hv.symm, ?_⟩
                        rw [← ha]
                        rfl
                      · exact PResult.noConfusion h
                      · exact PResult.noConfusion h
                      · exact PResult.noConfusion h
              · simp at h
  · intro row v tag h0 hv h1 h2 h3 h4
    cases row with
    | nil => simp at h0
    | cons w rest =>
      simp only [List.get?] at h0
      injection h0 with h0
      subst h0
      simp [rowEffect, hv, h1, h2, h3, h4]

/-- Witness for C8's unrecognized-tag part at the concrete tag
`"$ALIAS"`. -/
theorem C8_root_namespace_last_wins_witness :
    rowEffect [Json.str "$ALIAS"] = .ok none :=
  C8_root_namespace_last_wins.2.2 [Json.str "$ALIAS"] (Json.str "$ALIAS")
    "$ALIAS" rfl rfl (by decide) (by decide) (by decide) (by decide)

/-- Every output of the return-type mapping satisfies the invariant checker
(it is absent or a primitive type). -/
theorem optRetsOk_resolveRetType (s : String) :
    optRetsOk (resolveRetType s) = true := by
  unfold resolveRetType
  split_ifs <;> simp [optRetsOk, typeRetsOk]

/-- Every `Func` built by `parse_vmod_json_func` has its `ret_type` present
and an invariant-satisfying resolved return type. -/
theorem parse_func_retsOk :
    ∀ (arr : List Json) (f : VFunc),
      parse_vmod_json_func arr = .ok f → funcRetsOk f = true := by
  intro arr f h
  unfold parse_vmod_json_func at h
  split at h
  · exact PResult.noConfusion h
  · split at h
    · exact PResult.noConfusion h
    · split at h
      · exact PResult.noConfusion h
      · split at h
        · exact PResult.noConfusion h
        · split at h
          · exact PResult.noConfusion h
          · split at h
            · exact PResult.noConfusion h
            · split at h
              · exact PResult.noConfusion h
              · simp only [] at h
                split at h
                · exact PResult.noConfusion h
                · simp only [PResult.ok.injEq] at h
                  subst h
                  simp [funcRetsOk, optRetsOk_resolveRetType]

/-- Map insertion preserves the property-list invariant when the inserted
value satisfies it. -/
theorem propsRetsOk_insertAL :
    ∀ (props : List (String × VType)) (a : String) (v : VType),
      typeRetsOk v = true → propsRetsOk props = true →
      propsRetsOk (insertAL props a v) = true := by
  intro props
  induction props with
  | nil =>
    intro a v hv _
    simp [insertAL, propsRetsOk, hv]
  | cons p rest ih =>
    obtain ⟨x, y⟩ := p
    intro a v hv hp
    simp only [propsRetsOk, Bool.and_eq_true] at hp
    by_cases hax : a = x
    · subst hax
      simp [insertAL, propsRetsOk, hv, hp.2]
    · simp [insertAL, hax, propsRetsOk, hp.1, ih a v hv hp.2]

/-- The `$OBJ` method loop preserves the object invariant. -/
theorem parseMethods_retsOk :
    ∀ (ms : List Json) (n : String) (ro : Bool) (d : Option Unit)
      (props : List (String × VType)) (o : VObj),
      parseMethods (.mk n ro d props) ms = .ok o →
      propsRetsOk props = true → objRetsOk o = true := by
  intro ms
  induction ms with
  | nil =>
    intro n ro d props o h hp
    simp only [parseMethods, PResult.ok.injEq] at h
    subst h
    simp [objRetsOk, hp]
  | cons m rest ih =>
    intro n ro d props o h hp
    simp only [parseMethods] at h
    cases ha : m.asArr with
    | none => simp only [ha] at h; exact PResult.noConfusion h
    | some arr =>
      simp only [ha] at h
      cases hf : parse_vmod_json_func arr with
      | ok f =>
        simp only [hf] at h
        have hfr : typeRetsOk (.Func f) = true := by
          simp [typeRetsOk, parse_func_retsOk arr f hf]
        exact ih n ro d _ o (by simpa [VObj.insertProp] using h)
          (propsRetsOk_insertAL props f.name (.Func f) hfr hp)
      | err msg => simp only [hf] at h; exact PResult.noConfusion h
      | panicked msg => simp only [hf] at h; exact PResult.noConfusion h
      | ub msg => simp only [hf] at h; exact PResult.noConfusion h

/-- Every value contributed to the namespace by a row satisfies the
invariant checker. -/
theorem rowEffect_retsOk :
    ∀ (row : List Json) (a : String) (v : VType),
      rowEffect row = .ok (some (a, v)) → typeRetsOk v = true := by
  intro row a v h
  unfold rowEffect at h
  split at h
  · exact PResult.noConfusion h
  · split at h
    · simp at h
    · split at h
      · simp at h
      · split at h
        · simp at h
        · split at h
          · split at h
            next f hf =>
              simp only [PResult.ok.injEq, Option.some.injEq,
                Prod.mk.injEq] at h
              rw [← h.2]
              simp [typeRetsOk, parse_func_retsOk _ f hf]
            next msg hf => exact PResult.noConfusion h
            next msg hf => exact PResult.noConfusion h
            next msg hf => exact PResult.noConfusion h
          · split at h
            · split at h
              · exact PResult.noConfusion h
              · split at h
                · exact PResult.noConfusion h
                · split at h
                  · exact PResult.noConfusion h
                  · split at h
                    next obj hpm =>
                      simp only [PResult.ok.injEq, Option.some.injEq,
                        Prod.mk.injEq] at h
                      rw [← h.2]
                      have hobj : objRetsOk obj = true :=
                        parseMethods_retsOk _ _ _ _ _ _ hpm (by
                          simp [propsRetsOk])
                      simp [typeRetsOk, funcRetsOk, optRetsOk,
                        VFunc.ret_type, hobj]
                    next msg hpm => exact PResult.noConfusion h
                    next msg hpm => exact PResult.noConfusion h
                    next msg hpm => exact PResult.noConfusion h
            · simp at h

/-- The whole row loop preserves the object invariant. -/
theorem runRows_retsOk :
    ∀ (rows : List (List Json)) (obj o : VObj),
      runRows obj rows = .ok o → objRetsOk obj = true →
      objRetsOk o = true := by
  intro rows
  induction rows with
  | nil =>
    intro obj o h hobj
    simp only [runRows, PResult.ok.injEq] at h
    subst h
    exact hobj
  | cons row rest ih =>
    intro obj o h hobj
    simp only [runRows, processRow] at h
    cases hre : rowEffect row with
    | ok oc =>
      cases oc with
      | none =>
        simp only [hre] at h
        exact ih obj o h hobj
      | some kv =>
        obtain ⟨a, v⟩ := kv
        simp only [hre] at h
        refine ih _ o h ?_
        cases obj with
        | mk n ro d props =>
          simp only [objRetsOk] at hobj
          simp only [VObj.insertProp, objRetsOk]
          exact propsRetsOk_insertAL props a v
            (rowEffect_retsOk row a v hre) hobj
    | err msg => simp only [hre] at h; exact PResult.noConfusion h
    | panicked msg => simp only [hre] at h; exact PResult.noConfusion h
    | ub msg => simp only [hre] at h; exact PResult.noConfusion h

/-- C9: in every tree returned by a successful schema parse, every `Func` —
from a function-tag row, a nested method row, or synthesized for an
object-tag row — has its `ret_type` (declared-return-type-name) field
present, even when its resolved return type is absent. -/
theorem C9_ret_type_always_present :
    ∀ (rows : List (List Json)) (t : VType),
      parse_vmod_json rows = .ok t → typeRetsOk t = true := by
  intro rows t h
  unfold parse_vmod_json at h
  cases hrr : runRows initialObj rows with
  | ok o =>
    simp only [hrr, PResult.ok.injEq] at h
    subst h
    have hinit : objRetsOk initialObj = true := by
      simp [initialObj, objRetsOk, propsRetsOk]
    simp [typeRetsOk, runRows_retsOk rows initialObj o hrr hinit]
  | err msg => simp only [hrr] at h; exact PResult.noConfusion h
  | panicked msg => simp only [hrr] at h; exact PResult.noConfusion h
  | ub msg => simp only [hrr] at h; exact PResult.noConfusion h

/-- Witness for C9 on the parse of a schema with one function-tag row whose
return type is `VOID` (resolved return type absent, `ret_type` still
present). -/
theorem C9_ret_type_always_present_witness :
    typeRetsOk (.Obj (.mk "" true none
      [("f", .Func (.mk "f" (some "()") (some "VOID") none none))])) = true :=
  C9_ret_type_always_present
    [[.str "$FUNC", .str "f", .arr [.arr [.str "VOID"], .null, .null]]]
    (.Obj (.mk "" true none
      [("f", .Func (.mk "f" (some "()") (some "VOID") none none))])) rfl
